import Mathlib

/-!
Shallow embedding of `updates_gen.py`, a dialogue generation-and-deduplication
pipeline.  Text is modelled as `List Char` (Python strings are sequences of
characters).  External capabilities (spaCy NER, the OpenAI chat API, the file
system and dataset) are modelled as explicit oracle parameters.
-/

namespace UpdatesGen

abbrev Text := List Char

/-- Whitespace characters stripped by Python's `str.strip()` (the ASCII ones). -/
def isPySpace (c : Char) : Bool :=
  c = ' ' || c = '\t' || c = '\n' || c = '\r' || c = Char.ofNat 11 || c = Char.ofNat 12

/-- Model of Python `str.strip()`: drop whitespace from both ends. -/
def pyStrip (s : Text) : Text :=
  ((s.dropWhile isPySpace).reverse.dropWhile isPySpace).reverse

/-- Right-strip only (helper for reasoning about `pyStrip`). -/
def pyRStrip (s : Text) : Text :=
  (s.reverse.dropWhile isPySpace).reverse

/-- Model of Python `s.split('\n')`: always returns at least one piece. -/
def splitLines : Text → List Text
  | [] => [[]]
  | c :: rest =>
    if c = '\n' then [] :: splitLines rest
    else
      match splitLines rest with
      | [] => [[c]]
      | l :: ls => (c :: l) :: ls

/-- Model of Python `str.lower()` (per-character lowering). -/
def lowerText (s : Text) : Text := s.map Char.toLower

/-- Model of Python `str.upper()` (per-character uppering). -/
def upperText (s : Text) : Text := s.map Char.toUpper

/-- A dialogue turn as built by the script (a dict with an optional
`turn_id` key, a `speaker` label and an `utterance`). -/
structure Turn where
  turn_id : Option Text
  speaker : Text
  utterance : Text
deriving DecidableEq, Repr

/-- A spaCy entity span: character offsets plus a label such as `GPE`. -/
structure Ent where
  start_char : Nat
  end_char : Nat
  label : Text
deriving DecidableEq, Repr

/-- The `replacements` dict of `anonymize_text` (entity label to placeholder stem). -/
def replacements (label : Text) : Option Text :=
  if label = ("GPE").data then some (("LOCATION").data)
  else if label = ("LOC").data then some (("LOCATION").data)
  else if label = ("TIME").data then some (("TIME").data)
  else if label = ("DATE").data then some (("DATE").data)
  else if label = ("CARDINAL").data then some (("NUMBER").data)
  else if label = ("ORDINAL").data then some (("NUMBER").data)
  else if label = ("MONEY").data then some (("AMOUNT").data)
  else if label = ("PERSON").data then some (("PERSON").data)
  else if label = ("ORG").data then some (("ORGANIZATION").data)
  else none

/-- Insertion of one entity into a list sorted by descending `start_char`
(stable, mirroring Python's stable `sorted` with `reverse=True`). -/
def insertEntDesc (e : Ent) : List Ent → List Ent
  | [] => [e]
  | x :: xs => if x.start_char ≤ e.start_char then e :: x :: xs else x :: insertEntDesc e xs

/-- Model of `sorted(doc.ents, key=lambda ent: ent.start_char, reverse=True)`. -/
def sortEntsDesc : List Ent → List Ent
  | [] => []
  | e :: es => insertEntDesc e (sortEntsDesc es)

/-- One step of the replacement loop body of `anonymize_text`:
`anonymized_text[:start] + placeholder + anonymized_text[end:]` for a
recognized label, unchanged otherwise. -/
def applyEnt (anonymized_text : Text) (ent : Ent) : Text :=
  match replacements ent.label with
  | some rep =>
      anonymized_text.take ent.start_char ++ '<' :: upperText rep
        ++ '>' :: anonymized_text.drop ent.end_char
  | none => anonymized_text

/-- `anonymize_text` with the spaCy pipeline `nlp` passed as an oracle. -/
def anonymize_text (nlp : Text → List Ent) (text : Text) : Text :=
  (sortEntsDesc (nlp text)).foldl applyEnt text

/-- The speaker-code translation of `extract_and_anonymize_dialogue`
(`0 → USER`, `1 → ASSISTANT`, else `UNKNOWN`). -/
def speakerLabel (speaker : Int) : Text :=
  if speaker = 0 then ("USER").data
  else if speaker = 1 then ("ASSISTANT").data
  else ("UNKNOWN").data

/-- Model of Python's three-argument `zip`: truncates to the shortest input. -/
def zip3 {α β γ : Type} : List α → List β → List γ → List (α × β × γ)
  | a :: as, b :: bs, c :: cs => (a, b, c) :: zip3 as bs cs
  | _, _, _ => []

/-- One source dialogue example, with the parallel fields used by the script. -/
structure DialogueJson where
  speaker : List Int
  utterance : List Text
  turn_id : List Text
  services : List Text
  dialogue_id : Text
deriving DecidableEq, Repr

/-- `extract_and_anonymize_dialogue`: zip the parallel sequences, translate the
speaker code and anonymize each utterance. -/
def extract_and_anonymize_dialogue (nlp : Text → List Ent)
    (dialogue_json : DialogueJson) : List Turn :=
  (zip3 dialogue_json.turn_id dialogue_json.speaker dialogue_json.utterance).map
    (fun x => ⟨some x.1, speakerLabel x.2.1, anonymize_text nlp x.2.2⟩)

/-- One formatted line `f"{turn['speaker']}: {turn['utterance']}"`. -/
def turnLine (turn : Turn) : Text := turn.speaker ++ ':' :: ' ' :: turn.utterance

/-- `generate_base_conversation`: accumulate `"{speaker}: {utterance}\n"` per
turn, then `strip()` the result. -/
def generate_base_conversation (turns : List Turn) : Text :=
  pyStrip (turns.foldl (fun conversation turn => conversation ++ turnLine turn ++ ['\n']) [])

/-- Modelled from the spec for comparison with `generate_base_conversation`:
lines joined by a newline separator, no trailing newline. -/
def joinedBySep : List Text → Text
  | [] => []
  | [l] => l
  | l :: r :: rest => l ++ '\n' :: joinedBySep (r :: rest)

/-- Modelled from the spec: one line per turn, joined by newline. -/
def formatPerSpec (turns : List Turn) : Text :=
  joinedBySep (turns.map turnLine)

/-- The line classifier inside `process_generated_dialogue`: strip the line,
skip if blank, check a case-insensitive `user:` then
`assistant:`/`system:`/`agent:` marker, take the text after the first colon. -/
def parseLine (raw : Text) : Option Turn :=
  let line := pyStrip raw
  if line.isEmpty then none
  else if List.isPrefixOf (("user:").data) (lowerText line) then
    some ⟨none, ("USER").data, pyStrip ((line.dropWhile (fun c => c != ':')).drop 1)⟩
  else if List.isPrefixOf (("assistant:").data) (lowerText line)
      || List.isPrefixOf (("system:").data) (lowerText line)
      || List.isPrefixOf (("agent:").data) (lowerText line) then
    some ⟨none, ("ASSISTANT").data, pyStrip ((line.dropWhile (fun c => c != ':')).drop 1)⟩
  else none

/-- `process_generated_dialogue`: split on newlines and keep recognized turns. -/
def process_generated_dialogue (generated_dialogue : Text) : List Turn :=
  (splitLines generated_dialogue).filterMap parseLine

/-- Outcome of one `client.chat.completions.create` call: the stripped-later
candidate texts, or an `OpenAIError`. -/
inductive ApiResult where
  | ok (choices : List Text)
  | err
deriving DecidableEq, Repr

/-- The validity test `re.search(r'^(User:|Assistant:)', gen, re.MULTILINE)`:
some line starts with `User:` or `Assistant:`. -/
def hasSpeakerLine (t : Text) : Bool :=
  (splitLines t).any (fun l =>
    List.isPrefixOf (("User:").data) l || List.isPrefixOf (("Assistant:").data) l)

/-- The candidate scan of `generate_dialogue`: return the first candidate that
passes the speaker-marker check. -/
def findValid : List Text → Option Text
  | [] => none
  | gen_dialogue :: rest =>
    if hasSpeakerLine gen_dialogue then some gen_dialogue else findValid rest

/-- Observable trace of one `generate_dialogue` call: how many API calls were
made, the sequence of back-off sleeps, and the returned value (`none` models
the Python `return None`). -/
structure GenTrace where
  calls : Nat
  sleeps : List Nat
  result : Option Text
deriving DecidableEq, Repr

/-- The retry loop `for attempt in range(1, max_retries + 1)` of
`generate_dialogue`, from a given `attempt` on.  The `fuel` argument only
bounds the recursion; starting from attempt 1 with `fuel = max_retries` it is
never exhausted.  `api` gives each attempt's API outcome. -/
def genFuel (api : Nat → ApiResult) (max_retries : Nat) : Nat → Nat → GenTrace
  | _, 0 => ⟨0, [], none⟩
  | attempt, fuel + 1 =>
    match api attempt with
    | ApiResult.ok choices =>
      let generated_dialogues := choices.map pyStrip
      match findValid generated_dialogues with
      | some gen_dialogue => ⟨1, [], some gen_dialogue⟩
      | none =>
        if attempt < max_retries then
          let r := genFuel api max_retries (attempt + 1) fuel
          ⟨r.calls + 1, 2 ^ attempt :: r.sleeps, r.result⟩
        else ⟨1, [], none⟩
    | ApiResult.err =>
      if attempt < max_retries then
        let r := genFuel api max_retries (attempt + 1) fuel
        ⟨r.calls + 1, 2 ^ attempt :: r.sleeps, r.result⟩
      else ⟨1, [], none⟩

/-- `generate_dialogue`, starting the retry loop at attempt 1. -/
def generate_dialogue (api : Nat → ApiResult) (max_retries : Nat) : GenTrace :=
  genFuel api max_retries 1 max_retries

/-- An attempt that yields nothing usable: an API error, or candidates none of
which passes the speaker-marker check. -/
def attemptFails (api : Nat → ApiResult) (a : Nat) : Prop :=
  match api a with
  | ApiResult.ok choices => findValid (choices.map pyStrip) = none
  | ApiResult.err => True

/-- A persisted dialogue record, as appended to `new_dialogues`. -/
structure DialogueRecord where
  services : List Text
  dialogue_id : Text
  turns : List Turn
  base_conversation : Text
deriving DecidableEq, Repr

/-- The orchestrator's mutable in-run state: the identifier set, the
fingerprint set and the output buffer of freshly generated records. -/
structure OrchState where
  existing_ids : Finset Text
  existing_hashes : Finset Text
  new_dialogues : List DialogueRecord
deriving DecidableEq

/-- Terminal status of one item of the main loop. -/
inductive ItemStatus where
  | accepted
  | skippedDupSource
  | skippedGenFailed
  | skippedDupGenerated
  | skippedDupId
deriving DecidableEq, Repr

/-- The body of the per-item loop of `main` (lines 274-319 of the source), with
the SHA-256 hex digest abstracted as `hash` and the synthesizer outcome for
this item abstracted as `generated_dialogue`. -/
def processItem (hash : Text → Text) (nlp : Text → List Ent)
    (generated_dialogue : Option Text) (index : Nat) (ex : DialogueJson)
    (st : OrchState) : OrchState × ItemStatus :=
  let base_conversation := generate_base_conversation (extract_and_anonymize_dialogue nlp ex)
  let dialogue_hash := hash base_conversation
  if dialogue_hash ∈ st.existing_hashes then (st, ItemStatus.skippedDupSource)
  else
    match generated_dialogue with
    | none => (st, ItemStatus.skippedGenFailed)
    | some gd =>
      let generated_turns := process_generated_dialogue gd
      let generated_conversation := generate_base_conversation generated_turns
      let generated_hash := hash generated_conversation
      if generated_hash ∈ st.existing_hashes then (st, ItemStatus.skippedDupGenerated)
      else
        let new_dialogue_id :=
          ex.dialogue_id ++ ("_generated_").data ++ Nat.toDigits 10 index
        if new_dialogue_id ∈ st.existing_ids then (st, ItemStatus.skippedDupId)
        else
          (⟨insert new_dialogue_id st.existing_ids,
            insert generated_hash st.existing_hashes,
            st.new_dialogues
              ++ [⟨ex.services, new_dialogue_id, generated_turns, generated_conversation⟩]⟩,
           ItemStatus.accepted)

/-- The per-item loop over the sampled indices; also counts how many times the
synthesizer (`generate_dialogue`) is invoked — exactly once per item that is
not skipped as a duplicate source. -/
def runItems (hash : Text → Text) (nlp : Text → List Ent) (gen : Nat → Option Text)
    (data_split : List DialogueJson) : List Nat → OrchState → OrchState × Nat
  | [], st => (st, 0)
  | index :: rest, st =>
    let ex := data_split.getD index ⟨[], [], [], [], []⟩
    let r := processItem hash nlp (gen index) index ex st
    let r2 := runItems hash nlp gen data_split rest r.1
    (r2.1, (if r.2 = ItemStatus.skippedDupSource then 0 else 1) + r2.2)

/-- Artifact writes performed by the script. -/
inductive WriteEvent where
  | hashFileWrite
  | outputFileWrite
deriving DecidableEq, Repr

/-- The environment `main` starts from: the dataset load outcome, the contents
of `dialogue_hashes.json` and of the output file.  `none` means the file is
missing, `some none` that it exists but cannot be read or parsed. -/
structure MainEnv where
  dataset : Option (List DialogueJson)
  hashFile : Option (Option (List Text))
  outputFile : Option (Option (List DialogueRecord))
deriving DecidableEq

/-- `load_existing_hashes`: prefer the hash file; fall back to recomputing from
the output file, in which case the recomputed set is written to the hash file
at once; fail soft to an empty set otherwise. -/
def load_existing_hashes (hash : Text → Text) (env : MainEnv) :
    Finset Text × List WriteEvent :=
  match env.hashFile with
  | some (some hs) => (hs.toFinset, [])
  | some none => (∅, [])
  | none =>
    match env.outputFile with
    | some (some existing_dialogues) =>
      (((existing_dialogues.map (fun d => hash d.base_conversation)).toFinset),
        [WriteEvent.hashFileWrite])
    | some none => (∅, [])
    | none => (∅, [])

/-- The identifier set loaded from the output file at startup. -/
def loadExistingIds (env : MainEnv) : Finset Text :=
  match env.outputFile with
  | some (some existing_dialogues) =>
    (existing_dialogues.map (fun d => d.dialogue_id)).toFinset
  | some none => ∅
  | none => ∅

/-- How a run of `main` ended. -/
inductive MainResult where
  | abortedLoadFailure
  | abortedOversample
  | completed
deriving DecidableEq, Repr

/-- Observable trace of one run of `main`. -/
structure RunTrace where
  result : MainResult
  writes : List WriteEvent
  genCalls : Nat
  finalState : Option OrchState
deriving DecidableEq

/-- `main`: load the dataset, load existing ids and hashes, abort if the
requested count exceeds the corpus, otherwise run the per-item loop over the
sampled indices and persist the output and the hash file at the end.
`selected_indices` abstracts `random.sample`. -/
def mainRun (hash : Text → Text) (nlp : Text → List Ent) (gen : Nat → Option Text)
    (env : MainEnv) (num_generations : Nat) (selected_indices : List Nat) : RunTrace :=
  match env.dataset with
  | none => ⟨MainResult.abortedLoadFailure, [], 0, none⟩
  | some data_split =>
    let existing_ids := loadExistingIds env
    let lh := load_existing_hashes hash env
    if data_split.length < num_generations then
      ⟨MainResult.abortedOversample, lh.2, 0, none⟩
    else
      let r := runItems hash nlp gen data_split selected_indices ⟨existing_ids, lh.1, []⟩
      ⟨MainResult.completed, lh.2 ++ [WriteEvent.outputFileWrite, WriteEvent.hashFileWrite],
        r.2, some r.1⟩

/-! ### Lemmas about stripping and joining lines (formatter) -/

/-- A text whose first character (if any) is not Python whitespace. -/
def headNotSpaceB : Text → Bool
  | [] => true
  | c :: _ => !(isPySpace c)

/-- Concatenation of lines, each followed by one newline (the formatter's
accumulator shape before the final `strip()`). -/
def joinNl : List Text → Text
  | [] => []
  | l :: rest => l ++ '\n' :: joinNl rest

lemma dropWhile_eq_self_of_head (x : Text) (h : headNotSpaceB x = true) :
    x.dropWhile isPySpace = x := by
  cases x with
  | nil => rfl
  | cons c xs =>
    simp only [headNotSpaceB, Bool.not_eq_true'] at h
    simp [List.dropWhile_cons, h]

lemma dropWhile_append_of_head (x m : Text) (hne : x ≠ []) (h : headNotSpaceB x = true) :
    (x ++ m).dropWhile isPySpace = x ++ m := by
  cases x with
  | nil => exact absurd rfl hne
  | cons c xs =>
    simp only [headNotSpaceB, Bool.not_eq_true'] at h
    simp [List.dropWhile_cons, h]

lemma dropWhile_append_of_ne (x y : Text) (h : x.dropWhile isPySpace ≠ []) :
    (x ++ y).dropWhile isPySpace = x.dropWhile isPySpace ++ y := by
  induction x with
  | nil => simp at h
  | cons c xs ih =>
    cases hc : isPySpace c with
    | true =>
      simp only [List.dropWhile_cons, hc, if_true] at h ⊢
      simp only [List.cons_append, List.dropWhile_cons, hc, if_true]
      exact ih h
    | false =>
      simp [List.cons_append, List.dropWhile_cons, hc]

lemma pyRStrip_append (a b : Text) (h : pyRStrip b ≠ []) :
    pyRStrip (a ++ b) = a ++ pyRStrip b := by
  unfold pyRStrip at h ⊢
  rw [List.reverse_append, dropWhile_append_of_ne, List.reverse_append,
    List.reverse_reverse]
  intro hx
  exact h (by rw [hx]; rfl)

lemma pyRStrip_line (l : Text) (h : headNotSpaceB l.reverse = true) :
    pyRStrip (l ++ ['\n']) = l := by
  unfold pyRStrip
  rw [List.reverse_append]
  simp only [List.reverse_cons, List.reverse_nil, List.nil_append, List.singleton_append]
  rw [List.dropWhile_cons, if_pos (show isPySpace '\n' = true from rfl),
    dropWhile_eq_self_of_head _ h, List.reverse_reverse]

lemma foldl_conv (turns : List Turn) (acc : Text) :
    turns.foldl (fun conversation turn => conversation ++ turnLine turn ++ ['\n']) acc
      = acc ++ joinNl (turns.map turnLine) := by
  induction turns generalizing acc with
  | nil => simp [joinNl]
  | cons t ts ih =>
    simp only [List.foldl_cons, List.map_cons, joinNl]
    rw [ih]
    simp [List.append_assoc]

lemma joinedBySep_ne_nil (r : Text) (rest : List Text) (h : r ≠ []) :
    joinedBySep (r :: rest) ≠ [] := by
  cases rest with
  | nil => simpa [joinedBySep] using h
  | cons r2 rest2 =>
    simp only [joinedBySep]
    intro he
    rcases List.append_eq_nil.1 he with ⟨-, h2⟩
    exact List.cons_ne_nil _ _ h2

lemma pyRStrip_joinNl (lines : List Text)
    (h : ∀ l ∈ lines, l ≠ [] ∧ headNotSpaceB l.reverse = true) :
    pyRStrip (joinNl lines) = joinedBySep lines := by
  induction lines with
  | nil => rfl
  | cons l rest ih =>
    obtain ⟨hl, hlr⟩ := h l (List.mem_cons_self l rest)
    cases rest with
    | nil =>
      show pyRStrip (l ++ '\n' :: joinNl []) = joinedBySep [l]
      rw [show l ++ '\n' :: joinNl [] = l ++ ['\n'] from rfl, pyRStrip_line l hlr]
      rfl
    | cons r rest2 =>
      have hr := h r (by simp)
      have ihr : pyRStrip (joinNl (r :: rest2)) = joinedBySep (r :: rest2) :=
        ih (fun x hx => h x (List.mem_cons_of_mem l hx))
      have hne : pyRStrip (joinNl (r :: rest2)) ≠ [] := by
        rw [ihr]; exact joinedBySep_ne_nil r rest2 hr.1
      show pyRStrip (l ++ '\n' :: joinNl (r :: rest2)) = joinedBySep (l :: r :: rest2)
      rw [show l ++ '\n' :: joinNl (r :: rest2) = (l ++ ['\n']) ++ joinNl (r :: rest2) by simp,
        pyRStrip_append _ _ hne, ihr]
      simp [joinedBySep]

lemma pyStrip_joinNl (lines : List Text)
    (h : ∀ l ∈ lines, l ≠ [] ∧ headNotSpaceB l = true ∧ headNotSpaceB l.reverse = true) :
    pyStrip (joinNl lines) = joinedBySep lines := by
  cases lines with
  | nil => rfl
  | cons l rest =>
    obtain ⟨hl, hlh, hlr⟩ := h l (List.mem_cons_self l rest)
    show pyRStrip ((joinNl (l :: rest)).dropWhile isPySpace) = joinedBySep (l :: rest)
    rw [show joinNl (l :: rest) = l ++ ('\n' :: joinNl rest) from rfl,
      dropWhile_append_of_head l _ hl hlh]
    exact pyRStrip_joinNl (l :: rest) (fun x hx => ⟨(h x hx).1, (h x hx).2.2⟩)

lemma turnLine_ne_nil (t : Turn) : turnLine t ≠ [] := by
  unfold turnLine
  intro he
  rcases List.append_eq_nil.1 he with ⟨-, h2⟩
  exact List.cons_ne_nil _ _ h2

/-- C5: the claim as stated fails — for the turn sequence
`[(USER, "hi ")]` the formatter's final `strip()` removes the utterance's
trailing blank, so the output is not the newline-join of the lines
`"{SPEAKER}: {utterance}"`. -/
theorem C5_strip_counterexample :
    generate_base_conversation [⟨none, ("USER").data, ("hi ").data⟩]
      ≠ formatPerSpec [⟨none, ("USER").data, ("hi ").data⟩] := by
  decide

/-- C5 (amended): for every turn sequence whose rendered lines
`"{SPEAKER}: {utterance}"` carry no leading or trailing whitespace and no
embedded newline, the Conversation Formatter produces exactly one line per
turn, joined by newlines with no trailing newline; it is deterministic
unconditionally (it is a pure function of the turn sequence). -/
theorem C5_formatter_canonical (turns : List Turn)
    (h : ∀ t ∈ turns, headNotSpaceB (turnLine t) = true
        ∧ headNotSpaceB (turnLine t).reverse = true ∧ ('\n') ∉ turnLine t) :
    generate_base_conversation turns = formatPerSpec turns
  ∧ generate_base_conversation turns = generate_base_conversation turns := by
  refine ⟨?_, rfl⟩
  unfold generate_base_conversation formatPerSpec
  rw [foldl_conv, List.nil_append]
  apply pyStrip_joinNl
  intro l hl
  obtain ⟨t, ht, rfl⟩ := List.mem_map.1 hl
  exact ⟨turnLine_ne_nil t, (h t ht).1, (h t ht).2.1⟩

/-- Witness for C5 at a concrete turn sequence. -/
theorem C5_formatter_canonical_witness :
    generate_base_conversation [⟨none, ("USER").data, ("hi").data⟩]
      = formatPerSpec [⟨none, ("USER").data, ("hi").data⟩] :=
  (C5_formatter_canonical [⟨none, ("USER").data, ("hi").data⟩] (by decide)).1

/-! ### Lemmas about the line splitter and the turn parser -/

lemma splitLines_ne_nil (s : Text) : splitLines s ≠ [] := by
  induction s with
  | nil => simp [splitLines]
  | cons c rest ih =>
    simp only [splitLines]
    by_cases h : c = '\n'
    · simp [h]
    · simp only [if_neg h]
      cases hs : splitLines rest with
      | nil => simp
      | cons l ls => simp

lemma splitLines_cons_nl (t : Text) : splitLines ('\n' :: t) = [] :: splitLines t := by
  simp [splitLines]

lemma splitLines_cons_ne (c : Char) (t : Text) (h : ¬ c = '\n') (l : Text)
    (ls : List Text) (ht : splitLines t = l :: ls) :
    splitLines (c :: t) = (c :: l) :: ls := by
  simp only [splitLines, if_neg h, ht]

lemma splitLines_append (a b : Text) :
    splitLines (a ++ '\n' :: b) = splitLines a ++ splitLines b := by
  induction a with
  | nil => simp [splitLines, splitLines_cons_nl]
  | cons c a' ih =>
    by_cases h : c = '\n'
    · subst h
      rw [List.cons_append, splitLines_cons_nl, splitLines_cons_nl, ih, List.cons_append]
    · cases hs : splitLines a' with
      | nil => exact absurd hs (splitLines_ne_nil a')
      | cons l ls =>
        rw [List.cons_append,
          splitLines_cons_ne c (a' ++ '\n' :: b) h l (ls ++ splitLines b) (by rw [ih, hs]; rfl),
          splitLines_cons_ne c a' h l ls hs]
        rfl

lemma splitLines_no_nl (l : Text) (h : ('\n') ∉ l) : splitLines l = [l] := by
  induction l with
  | nil => rfl
  | cons c rest ih =>
    have hc : ¬ c = '\n' := fun e => h (e ▸ List.mem_cons_self c rest)
    have hrest : ('\n') ∉ rest := fun hm => h (List.mem_cons_of_mem c hm)
    simp [splitLines, hc, ih hrest]

lemma process_append_nl (a b : Text) :
    process_generated_dialogue (a ++ '\n' :: b)
      = process_generated_dialogue a ++ process_generated_dialogue b := by
  unfold process_generated_dialogue
  rw [splitLines_append, List.filterMap_append]

lemma process_single (l : Text) (h : ('\n') ∉ l) :
    process_generated_dialogue l = (parseLine l).toList := by
  unfold process_generated_dialogue
  rw [splitLines_no_nl l h]
  cases hp : parseLine l <;> simp [List.filterMap_cons, hp]

lemma head_of_isPrefixOf {c : Char} {p x : Text}
    (h : List.isPrefixOf (c :: p) x = true) : ∃ xs, x = c :: xs := by
  rw [List.isPrefixOf_iff_prefix] at h
  obtain ⟨t, ht⟩ := h
  exact ⟨p ++ t, ht.symm⟩

lemma user_not_of_marker (x : Text)
    (h : List.isPrefixOf (("assistant:").data) x = true
      ∨ List.isPrefixOf (("system:").data) x = true
      ∨ List.isPrefixOf (("agent:").data) x = true) :
    List.isPrefixOf (("user:").data) x = false := by
  have ha : ("assistant:").data = 'a' :: ("ssistant:").data := rfl
  have hs : ("system:").data = 's' :: ("ystem:").data := rfl
  have hg : ("agent:").data = 'a' :: ("gent:").data := rfl
  have hu : ("user:").data = 'u' :: ("ser:").data := rfl
  rcases h with h | h | h
  · rw [ha] at h
    obtain ⟨xs, rfl⟩ := head_of_isPrefixOf h
    rw [hu]
    simp [List.isPrefixOf]
  · rw [hs] at h
    obtain ⟨xs, rfl⟩ := head_of_isPrefixOf h
    rw [hu]
    simp [List.isPrefixOf]
  · rw [hg] at h
    obtain ⟨xs, rfl⟩ := head_of_isPrefixOf h
    rw [hu]
    simp [List.isPrefixOf]

lemma isEmpty_false_of_user {x : Text}
    (h : List.isPrefixOf (("user:").data) x = true) : x.isEmpty = false := by
  rw [show ("user:").data = 'u' :: ("ser:").data from rfl] at h
  obtain ⟨xs, rfl⟩ := head_of_isPrefixOf h
  rfl

lemma lower_nil_of_nil (x : Text) (h : lowerText x = []) : x = [] := by
  cases x with
  | nil => rfl
  | cons c xs => simp [lowerText] at h

lemma parseLine_blank (l : Text) (h : pyStrip l = []) : parseLine l = none := by
  simp [parseLine, h]

lemma parseLine_user (l : Text)
    (h : List.isPrefixOf (("user:").data) (lowerText (pyStrip l)) = true) :
    parseLine l = some ⟨none, ("USER").data,
      pyStrip (((pyStrip l).dropWhile (fun c => c != ':')).drop 1)⟩ := by
  have hempty : (pyStrip l).isEmpty = false := by
    cases hx : pyStrip l with
    | nil => rw [hx] at h; simp [lowerText, List.isPrefixOf] at h
    | cons c xs => rfl
  simp only [parseLine, hempty, Bool.false_eq_true, if_false, h, if_true]

lemma parseLine_marker (l : Text)
    (h : List.isPrefixOf (("assistant:").data) (lowerText (pyStrip l)) = true
      ∨ List.isPrefixOf (("system:").data) (lowerText (pyStrip l)) = true
      ∨ List.isPrefixOf (("agent:").data) (lowerText (pyStrip l)) = true) :
    parseLine l = some ⟨none, ("ASSISTANT").data,
      pyStrip (((pyStrip l).dropWhile (fun c => c != ':')).drop 1)⟩ := by
  have huser : List.isPrefixOf (("user:").data) (lowerText (pyStrip l)) = false :=
    user_not_of_marker _ h
  have hempty : (pyStrip l).isEmpty = false := by
    cases hx : pyStrip l with
    | nil =>
      rw [hx] at h
      rcases h with h | h | h <;> simp [lowerText, List.isPrefixOf] at h
    | cons c xs => rfl
  have hmark : (List.isPrefixOf (("assistant:").data) (lowerText (pyStrip l))
      || List.isPrefixOf (("system:").data) (lowerText (pyStrip l))
      || List.isPrefixOf (("agent:").data) (lowerText (pyStrip l))) = true := by
    rcases h with h | h | h
    · rw [h]; rfl
    · rw [h]; simp
    · rw [h]; simp
  simp only [parseLine, hempty, Bool.false_eq_true, if_false, huser, hmark, if_true]

lemma parseLine_other (l : Text)
    (h1 : List.isPrefixOf (("user:").data) (lowerText (pyStrip l)) = false)
    (h2 : List.isPrefixOf (("assistant:").data) (lowerText (pyStrip l)) = false)
    (h3 : List.isPrefixOf (("system:").data) (lowerText (pyStrip l)) = false)
    (h4 : List.isPrefixOf (("agent:").data) (lowerText (pyStrip l)) = false) :
    parseLine l = none := by
  by_cases hempty : (pyStrip l).isEmpty = true
  · simp [parseLine, hempty]
  · simp only [Bool.not_eq_true] at hempty
    simp only [parseLine, hempty, Bool.false_eq_true, if_false, h1, h2, h3, h4,
      Bool.or_false, Bool.false_or]

/-- C3: the Turn Parser splits on line boundaries preserving order (splitting
at any newline concatenates the two halves' parses), skips blank lines, turns
a case-insensitive `user:` line into a USER turn carrying the stripped text
after the first colon, turns `assistant:`/`system:`/`agent:` lines into
ASSISTANT turns, silently drops every other line, and parses the spec's
example to exactly the two expected turns. -/
theorem C3_parse_turns :
    (∀ a b : Text, process_generated_dialogue (a ++ '\n' :: b)
        = process_generated_dialogue a ++ process_generated_dialogue b)
  ∧ (∀ l : Text, ('\n') ∉ l → pyStrip l = [] → process_generated_dialogue l = [])
  ∧ (∀ l : Text, ('\n') ∉ l →
        List.isPrefixOf (("user:").data) (lowerText (pyStrip l)) = true →
        process_generated_dialogue l = [⟨none, ("USER").data,
          pyStrip (((pyStrip l).dropWhile (fun c => c != ':')).drop 1)⟩])
  ∧ (∀ l : Text, ('\n') ∉ l →
        (List.isPrefixOf (("assistant:").data) (lowerText (pyStrip l)) = true
          ∨ List.isPrefixOf (("system:").data) (lowerText (pyStrip l)) = true
          ∨ List.isPrefixOf (("agent:").data) (lowerText (pyStrip l)) = true) →
        process_generated_dialogue l = [⟨none, ("ASSISTANT").data,
          pyStrip (((pyStrip l).dropWhile (fun c => c != ':')).drop 1)⟩])
  ∧ (∀ l : Text, ('\n') ∉ l →
        List.isPrefixOf (("user:").data) (lowerText (pyStrip l)) = false →
        List.isPrefixOf (("assistant:").data) (lowerText (pyStrip l)) = false →
        List.isPrefixOf (("system:").data) (lowerText (pyStrip l)) = false →
        List.isPrefixOf (("agent:").data) (lowerText (pyStrip l)) = false →
        process_generated_dialogue l = [])
  ∧ process_generated_dialogue (("User: Hi\nAssistant: Hello there\nrandom narration\n").data)
      = [⟨none, ("USER").data, ("Hi").data⟩, ⟨none, ("ASSISTANT").data, ("Hello there").data⟩] := by
  refine ⟨process_append_nl, ?_, ?_, ?_, ?_, by decide⟩
  · intro l hnl hblank
    rw [process_single l hnl, parseLine_blank l hblank]
    rfl
  · intro l hnl huser
    rw [process_single l hnl, parseLine_user l huser]
    rfl
  · intro l hnl hmark
    rw [process_single l hnl, parseLine_marker l hmark]
    rfl
  · intro l hnl h1 h2 h3 h4
    rw [process_single l hnl, parseLine_other l h1 h2 h3 h4]
    rfl

/-- Witness for C3: the line-boundary split and the drop of an unrecognized
line, at concrete inputs. -/
theorem C3_parse_turns_witness :
    process_generated_dialogue ((("User: Hi").data) ++ '\n' :: (("junk").data))
      = process_generated_dialogue (("User: Hi").data)
        ++ process_generated_dialogue (("junk").data)
  ∧ process_generated_dialogue (("junk").data) = [] :=
  ⟨C3_parse_turns.1 (("User: Hi").data) (("junk").data),
   C3_parse_turns.2.2.2.2.1 (("junk").data) (by decide) (by decide) (by decide)
     (by decide) (by decide)⟩

/-! ### Lemmas about the anonymizer -/

lemma mem_insertEntDesc (e e' : Ent) (l : List Ent) :
    e' ∈ insertEntDesc e l ↔ e' = e ∨ e' ∈ l := by
  induction l with
  | nil => simp [insertEntDesc]
  | cons x xs ih =>
    simp only [insertEntDesc]
    by_cases h : x.start_char ≤ e.start_char
    · simp [if_pos h]
    · simp only [if_neg h, List.mem_cons, ih]
      tauto

lemma mem_sortEntsDesc (e : Ent) (l : List Ent) :
    e ∈ sortEntsDesc l ↔ e ∈ l := by
  induction l with
  | nil => simp [sortEntsDesc]
  | cons x xs ih =>
    simp only [sortEntsDesc, mem_insertEntDesc, ih, List.mem_cons]

lemma foldl_applyEnt_id (l : List Ent) (t : Text)
    (h : ∀ e ∈ l, replacements e.label = none) : l.foldl applyEnt t = t := by
  induction l generalizing t with
  | nil => rfl
  | cons e es ih =>
    have he : applyEnt t e = t := by
      unfold applyEnt
      rw [h e (List.mem_cons_self e es)]
    rw [List.foldl_cons, he]
    exact ih t (fun x hx => h x (List.mem_cons_of_mem e hx))

/-- C8: when entity recognition reports no span with a recognized category,
the Anonymizer returns its input unchanged, and it is idempotent on such
input; in particular this covers the empty string. -/
theorem C8_anonymize_no_entities (nlp : Text → List Ent) (t : Text)
    (h : ∀ e ∈ nlp t, replacements e.label = none) :
    anonymize_text nlp t = t
  ∧ anonymize_text nlp (anonymize_text nlp t) = anonymize_text nlp t := by
  have h1 : anonymize_text nlp t = t := by
    unfold anonymize_text
    exact foldl_applyEnt_id _ t (fun e he => h e ((mem_sortEntsDesc e (nlp t)).1 he))
  exact ⟨h1, by rw [h1, h1]⟩

/-- Witness for C8: an entity recognizer returning no spans, on the empty
string. -/
theorem C8_anonymize_no_entities_witness :
    anonymize_text (fun _ => ([] : List Ent)) [] = []
  ∧ anonymize_text (fun _ => ([] : List Ent))
      (anonymize_text (fun _ => ([] : List Ent)) [])
      = anonymize_text (fun _ => ([] : List Ent)) [] :=
  C8_anonymize_no_entities (fun _ => ([] : List Ent)) []
    (fun e he => absurd he (List.not_mem_nil e))

/-! ### Lemmas about the extraction zip (truncation to the shortest input) -/

lemma zip3_length {α β γ : Type} (as : List α) (bs : List β) (cs : List γ) :
    (zip3 as bs cs).length = min (min as.length bs.length) cs.length := by
  induction as generalizing bs cs with
  | nil => simp [zip3]
  | cons a as' ih =>
    cases bs with
    | nil => simp [zip3]
    | cons b bs' =>
      cases cs with
      | nil => simp [zip3]
      | cons c cs' =>
        simp only [zip3, List.length_cons, ih, Nat.succ_min_succ]

lemma zip3_getElem? {α β γ : Type} (as : List α) (bs : List β) (cs : List γ) (i : Nat) :
    (zip3 as bs cs)[i]?
      = match as[i]?, bs[i]?, cs[i]? with
        | some a, some b, some c => some (a, b, c)
        | _, _, _ => none := by
  induction as generalizing bs cs i with
  | nil =>
    rw [show zip3 ([] : List α) bs cs = [] by cases bs <;> cases cs <;> rfl]
    simp
  | cons a as' ih =>
    cases bs with
    | nil =>
      rw [show zip3 (a :: as') ([] : List β) cs = [] by cases cs <;> rfl]
      cases (a :: as')[i]? <;> simp
    | cons b bs' =>
      cases cs with
      | nil =>
        rw [show zip3 (a :: as') (b :: bs') ([] : List γ) = [] from rfl]
        cases (a :: as')[i]? <;> cases (b :: bs')[i]? <;> simp
      | cons c cs' =>
        cases i with
        | zero => simp [zip3]
        | succ j =>
          simp only [zip3, List.getElem?_cons_succ]
          exact ih bs' cs' j

/-- C9: extraction produces exactly one turn per aligned triple of the three
parallel sequences, truncating to the shortest sequence — its length is the
minimum of the three lengths, and the i-th turn exists exactly when all three
sequences have an i-th entry, pairing them positionally. -/
theorem C9_extract_truncates (nlp : Text → List Ent) (dj : DialogueJson) :
    (extract_and_anonymize_dialogue nlp dj).length
      = min (min dj.turn_id.length dj.speaker.length) dj.utterance.length
  ∧ ∀ i : Nat, (extract_and_anonymize_dialogue nlp dj)[i]?
      = match dj.turn_id[i]?, dj.speaker[i]?, dj.utterance[i]? with
        | some tid, some sp, some utt =>
          some ⟨some tid, speakerLabel sp, anonymize_text nlp utt⟩
        | _, _, _ => none := by
  constructor
  · unfold extract_and_anonymize_dialogue
    rw [List.length_map, zip3_length]
  · intro i
    unfold extract_and_anonymize_dialogue
    rw [List.getElem?_map, zip3_getElem?]
    cases dj.turn_id[i]? <;> cases dj.speaker[i]? <;> cases dj.utterance[i]? <;> rfl

/-! ### Lemmas about the synthesizer retry loop -/

lemma genFuel_calls_le (api : Nat → ApiResult) (mr : Nat) :
    ∀ fuel attempt, (genFuel api mr attempt fuel).calls ≤ fuel := by
  intro fuel
  induction fuel with
  | zero => intro attempt; exact Nat.le_refl 0
  | succ f ih =>
    intro attempt
    cases hapi : api attempt with
    | ok choices =>
      cases hfv : findValid (choices.map pyStrip) with
      | some t =>
        simp only [genFuel, hapi, hfv]
        omega
      | none =>
        by_cases hlt : attempt < mr
        · simp only [genFuel, hapi, hfv, if_pos hlt]
          exact Nat.succ_le_succ (ih (attempt + 1))
        · simp only [genFuel, hapi, hfv, if_neg hlt]
          omega
    | err =>
      by_cases hlt : attempt < mr
      · simp only [genFuel, hapi, if_pos hlt]
        exact Nat.succ_le_succ (ih (attempt + 1))
      · simp only [genFuel, hapi, if_neg hlt]
        omega

lemma genFuel_calls_pos (api : Nat → ApiResult) (mr : Nat) :
    ∀ fuel attempt, 1 ≤ fuel → 1 ≤ (genFuel api mr attempt fuel).calls := by
  intro fuel
  cases fuel with
  | zero => intro attempt h; exact absurd h (by omega)
  | succ f =>
    intro attempt h
    cases hapi : api attempt with
    | ok choices =>
      cases hfv : findValid (choices.map pyStrip) with
      | some t => simp only [genFuel, hapi, hfv]; omega
      | none =>
        by_cases hlt : attempt < mr
        · simp only [genFuel, hapi, hfv, if_pos hlt]
          omega
        · simp only [genFuel, hapi, hfv, if_neg hlt]
          omega
    | err =>
      by_cases hlt : attempt < mr
      · simp only [genFuel, hapi, if_pos hlt]
        omega
      · simp only [genFuel, hapi, if_neg hlt]
        omega

lemma genFuel_sleeps (api : Nat → ApiResult) (mr : Nat) :
    ∀ fuel attempt, attempt ≤ mr → mr + 1 ≤ attempt + fuel →
      (genFuel api mr attempt fuel).sleeps
        = (List.range ((genFuel api mr attempt fuel).calls - 1)).map
            (fun i => 2 ^ (attempt + i)) := by
  intro fuel
  induction fuel with
  | zero => intro attempt h1 h2; omega
  | succ f ih =>
    intro attempt h1 h2
    have hstep : ∀ r : GenTrace, r = genFuel api mr (attempt + 1) f →
        attempt < mr →
        (2 ^ attempt :: r.sleeps
          = (List.range (r.calls + 1 - 1)).map (fun i => 2 ^ (attempt + i))) := by
      intro r hr hlt
      have hrc : 1 ≤ r.calls := by
        rw [hr]; exact genFuel_calls_pos api mr f (attempt + 1) (by omega)
      have hrs : r.sleeps
          = (List.range (r.calls - 1)).map (fun i => 2 ^ (attempt + 1 + i)) := by
        rw [hr]; exact ih (attempt + 1) (by omega) (by omega)
      obtain ⟨m, hm⟩ : ∃ m : Nat, r.calls = m + 1 := ⟨r.calls - 1, by omega⟩
      rw [hrs, hm]
      simp only [Nat.add_sub_cancel, List.range_succ_eq_map, List.map_cons, List.map_map,
        Nat.add_zero]
      congr 1
      apply List.map_congr_left
      intro i hi
      simp only [Function.comp_apply]
      congr 1
      omega
    cases hapi : api attempt with
    | ok choices =>
      cases hfv : findValid (choices.map pyStrip) with
      | some t => simp only [genFuel, hapi, hfv]; rfl
      | none =>
        by_cases hlt : attempt < mr
        · simp only [genFuel, hapi, hfv, if_pos hlt]
          exact hstep _ rfl hlt
        · simp only [genFuel, hapi, hfv, if_neg hlt]
          rfl
    | err =>
      by_cases hlt : attempt < mr
      · simp only [genFuel, hapi, if_pos hlt]
        exact hstep _ rfl hlt
      · simp only [genFuel, hapi, if_neg hlt]
        rfl

lemma genFuel_exhaust (api : Nat → ApiResult) (mr : Nat) :
    ∀ fuel attempt, (∀ a, attempt ≤ a → a ≤ mr → attemptFails api a) →
      attempt ≤ mr → mr + 1 ≤ attempt + fuel →
      (genFuel api mr attempt fuel).result = none
    ∧ (genFuel api mr attempt fuel).calls = mr + 1 - attempt := by
  intro fuel
  induction fuel with
  | zero => intro attempt hfail h1 h2; omega
  | succ f ih =>
    intro attempt hfail h1 h2
    have hthis : attemptFails api attempt := hfail attempt (Nat.le_refl attempt) h1
    cases hapi : api attempt with
    | ok choices =>
      have hfv : findValid (choices.map pyStrip) = none := by
        unfold attemptFails at hthis
        rw [hapi] at hthis
        exact hthis
      by_cases hlt : attempt < mr
      · simp only [genFuel, hapi, hfv, if_pos hlt]
        have hrec := ih (attempt + 1) (fun a ha hb => hfail a (by omega) hb) (by omega) (by omega)
        exact ⟨hrec.1, by rw [hrec.2]; omega⟩
      · simp only [genFuel, hapi, hfv, if_neg hlt]
        exact ⟨by trivial, by omega⟩
    | err =>
      by_cases hlt : attempt < mr
      · simp only [genFuel, hapi, if_pos hlt]
        have hrec := ih (attempt + 1) (fun a ha hb => hfail a (by omega) hb) (by omega) (by omega)
        exact ⟨hrec.1, by rw [hrec.2]; omega⟩
      · simp only [genFuel, hapi, if_neg hlt]
        exact ⟨by trivial, by omega⟩

lemma genFuel_congr (api api' : Nat → ApiResult) (mr j : Nat) (cs : List Text)
    (hj : api j = ApiResult.err) (hj' : api' j = ApiResult.ok cs)
    (hcs : findValid (cs.map pyStrip) = none)
    (hagree : ∀ b, b ≠ j → api b = api' b) :
    ∀ fuel attempt, genFuel api mr attempt fuel = genFuel api' mr attempt fuel := by
  intro fuel
  induction fuel with
  | zero => intro attempt; rfl
  | succ f ih =>
    intro attempt
    by_cases hb : attempt = j
    · subst hb
      simp only [genFuel, hj, hj', hcs]
      rw [ih (attempt + 1)]
    · have hsame : api attempt = api' attempt := hagree attempt hb
      cases hapi : api' attempt with
      | ok choices =>
        cases hfv : findValid (choices.map pyStrip) with
        | some t => simp only [genFuel, hsame, hapi, hfv]
        | none =>
          simp only [genFuel, hsame, hapi, hfv]
          rw [ih (attempt + 1)]
      | err =>
        simp only [genFuel, hsame, hapi]
        rw [ih (attempt + 1)]

lemma findValid_some_valid :
    ∀ (cs : List Text) (t : Text), findValid cs = some t → hasSpeakerLine t = true := by
  intro cs
  induction cs with
  | nil => intro t h; exact absurd h (by simp [findValid])
  | cons c cs' ih =>
    intro t h
    by_cases hc : hasSpeakerLine c = true
    · simp only [findValid, if_pos hc] at h
      rw [← Option.some_inj.1 h]
      exact hc
    · simp only [findValid, if_neg hc] at h
      exact ih t h

lemma findValid_some_spec :
    ∀ (cs : List Text) (t : Text), findValid cs = some t →
      ∃ i : Nat, cs[i]? = some t ∧ hasSpeakerLine t = true
        ∧ ∀ j : Nat, j < i → ∀ c, cs[j]? = some c → hasSpeakerLine c = false := by
  intro cs
  induction cs with
  | nil => intro t h; exact absurd h (by simp [findValid])
  | cons c cs' ih =>
    intro t h
    by_cases hc : hasSpeakerLine c = true
    · simp only [findValid, if_pos hc] at h
      refine ⟨0, ?_, ?_, ?_⟩
      · simp [← Option.some_inj.1 h]
      · rw [← Option.some_inj.1 h]; exact hc
      · intro j hj; omega
    · simp only [findValid, if_neg hc] at h
      obtain ⟨i, hi, hv, hbefore⟩ := ih t h
      refine ⟨i + 1, by simpa using hi, hv, ?_⟩
      intro j hj d hd
      cases j with
      | zero =>
        simp only [List.getElem?_cons_zero, Option.some_inj] at hd
        rw [← hd]
        simpa using hc
      | succ j' =>
        exact hbefore j' (by omega) d (by simpa using hd)

lemma findValid_none_iff :
    ∀ cs : List Text, findValid cs = none ↔ ∀ c ∈ cs, hasSpeakerLine c = false := by
  intro cs
  induction cs with
  | nil => simp [findValid]
  | cons c cs' ih =>
    by_cases hc : hasSpeakerLine c = true
    · simp [findValid, hc]
    · simp only [findValid, if_neg hc, ih, List.mem_cons]
      constructor
      · intro h d hd
        rcases hd with rfl | hd
        · simpa using hc
        · exact h d hd
      · intro h d hd
        exact h d (Or.inr hd)

lemma genFuel_result_valid (api : Nat → ApiResult) (mr : Nat) :
    ∀ fuel attempt t, (genFuel api mr attempt fuel).result = some t →
      hasSpeakerLine t = true := by
  intro fuel
  induction fuel with
  | zero => intro attempt t h; exact absurd h (by simp [genFuel])
  | succ f ih =>
    intro attempt t h
    cases hapi : api attempt with
    | ok choices =>
      cases hfv : findValid (choices.map pyStrip) with
      | some u =>
        simp only [genFuel, hapi, hfv, Option.some_inj] at h
        rw [← h]
        exact findValid_some_valid _ u hfv
      | none =>
        by_cases hlt : attempt < mr
        · simp only [genFuel, hapi, hfv, if_pos hlt] at h
          exact ih (attempt + 1) t h
        · simp only [genFuel, hapi, hfv, if_neg hlt] at h
          exact absurd h (by simp)
    | err =>
      by_cases hlt : attempt < mr
      · simp only [genFuel, hapi, if_pos hlt] at h
        exact ih (attempt + 1) t h
      · simp only [genFuel, hapi, if_neg hlt] at h
        exact absurd h (by simp)

/-- C2: with `max_attempts ≥ 1`, the synthesizer makes at most `max_attempts`
calls to the generative capability; if every attempt fails it returns the
failure signal `none` (no exception — the model is a total function) after
exactly `max_attempts` calls; the sleeps between consecutive attempts are
exactly `2^1, 2^2, …` (delay doubling, attempt-indexed); and a transport
error on an attempt produces the identical trace as a failed validation on
that attempt. -/
theorem C2_retry_backoff (api : Nat → ApiResult) (max_retries : Nat)
    (h : 1 ≤ max_retries) :
    (generate_dialogue api max_retries).calls ≤ max_retries
  ∧ (generate_dialogue api max_retries).sleeps
      = (List.range ((generate_dialogue api max_retries).calls - 1)).map
          (fun i => 2 ^ (1 + i))
  ∧ ((∀ a, 1 ≤ a → a ≤ max_retries → attemptFails api a) →
      (generate_dialogue api max_retries).result = none
    ∧ (generate_dialogue api max_retries).calls = max_retries)
  ∧ (∀ (api' : Nat → ApiResult) (j : Nat) (cs : List Text),
      api j = ApiResult.err → api' j = ApiResult.ok cs →
      findValid (cs.map pyStrip) = none →
      (∀ b, b ≠ j → api b = api' b) →
      generate_dialogue api max_retries = generate_dialogue api' max_retries) := by
  refine ⟨genFuel_calls_le api max_retries max_retries 1, ?_, ?_, ?_⟩
  · exact genFuel_sleeps api max_retries max_retries 1 h (by omega)
  · intro hfail
    have hex := genFuel_exhaust api max_retries max_retries 1 hfail h (by omega)
    refine ⟨hex.1, ?_⟩
    show (genFuel api max_retries 1 max_retries).calls = max_retries
    rw [hex.2]
    omega
  · intro api' j cs hj hj' hcs hagree
    exact genFuel_congr api api' max_retries j cs hj hj' hcs hagree max_retries 1

/-- Witness for C2 at a concrete always-erring oracle with two attempts. -/
theorem C2_retry_backoff_witness :
    (generate_dialogue (fun _ => ApiResult.err) 2).calls ≤ 2
  ∧ (generate_dialogue (fun _ => ApiResult.err) 2).result = none
  ∧ generate_dialogue (fun _ => ApiResult.err) 2
      = generate_dialogue
          (fun b => if b = 1 then ApiResult.ok [[]] else ApiResult.err) 2 :=
  ⟨(C2_retry_backoff (fun _ => ApiResult.err) 2 (by omega)).1,
   ((C2_retry_backoff (fun _ => ApiResult.err) 2 (by omega)).2.2.1
      (fun a _ _ => trivial)).1,
   (C2_retry_backoff (fun _ => ApiResult.err) 2 (by omega)).2.2.2
      (fun b => if b = 1 then ApiResult.ok [[]] else ApiResult.err) 1 [[]]
      rfl rfl rfl (fun b hb => by simp [hb])⟩

/-- C7: the candidate scan returns the first candidate (in scan order, over
the stripped completions) that has some line starting with `User:` or
`Assistant:`; a scan returns `none` exactly when every candidate lacks such a
line; consequently the synthesizer only ever returns a transcript containing
at least one speaker-marker line, or the failure signal. -/
theorem C7_candidate_validation :
    (∀ (choices : List Text) (t : Text),
        findValid (choices.map pyStrip) = some t →
        ∃ i : Nat, (choices.map pyStrip)[i]? = some t ∧ hasSpeakerLine t = true
          ∧ ∀ j : Nat, j < i → ∀ c, (choices.map pyStrip)[j]? = some c →
              hasSpeakerLine c = false)
  ∧ (∀ choices : List Text,
        findValid (choices.map pyStrip) = none
          ↔ ∀ c ∈ choices, hasSpeakerLine (pyStrip c) = false)
  ∧ (∀ (api : Nat → ApiResult) (max_retries : Nat) (t : Text),
        (generate_dialogue api max_retries).result = some t →
        hasSpeakerLine t = true) := by
  refine ⟨?_, ?_, ?_⟩
  · intro choices t h
    exact findValid_some_spec (choices.map pyStrip) t h
  · intro choices
    rw [findValid_none_iff]
    constructor
    · intro h c hc
      exact h (pyStrip c) (List.mem_map_of_mem pyStrip hc)
    · intro h c hc
      obtain ⟨d, hd, rfl⟩ := List.mem_map.1 hc
      exact h d hd
  · intro api max_retries t h
    exact genFuel_result_valid api max_retries max_retries 1 t h

/-- Witness for C7: a concrete successful scan and a concrete rejection. -/
theorem C7_candidate_validation_witness :
    (∃ i : Nat, ([("User: hi").data].map pyStrip)[i]? = some (("User: hi").data)
      ∧ hasSpeakerLine (("User: hi").data) = true
      ∧ ∀ j : Nat, j < i → ∀ c, ([("User: hi").data].map pyStrip)[j]? = some c →
          hasSpeakerLine c = false)
  ∧ hasSpeakerLine (("User: hi").data) = true :=
  ⟨C7_candidate_validation.1 [("User: hi").data] (("User: hi").data) (by decide),
   C7_candidate_validation.2.2 (fun _ => ApiResult.ok [("User: hi").data]) 1
     (("User: hi").data) (by decide)⟩

/-! ### Lemmas about the orchestrator's per-item step -/

lemma processItem_srcdup (hash : Text → Text) (nlp : Text → List Ent)
    (g : Option Text) (index : Nat) (ex : DialogueJson) (st : OrchState)
    (h : hash (generate_base_conversation (extract_and_anonymize_dialogue nlp ex))
        ∈ st.existing_hashes) :
    processItem hash nlp g index ex st = (st, ItemStatus.skippedDupSource) := by
  simp only [processItem, if_pos h]

lemma processItem_genfail (hash : Text → Text) (nlp : Text → List Ent)
    (index : Nat) (ex : DialogueJson) (st : OrchState)
    (h : hash (generate_base_conversation (extract_and_anonymize_dialogue nlp ex))
        ∉ st.existing_hashes) :
    processItem hash nlp none index ex st = (st, ItemStatus.skippedGenFailed) := by
  simp only [processItem, if_neg h]

lemma processItem_gendup (hash : Text → Text) (nlp : Text → List Ent)
    (gd : Text) (index : Nat) (ex : DialogueJson) (st : OrchState)
    (h1 : hash (generate_base_conversation (extract_and_anonymize_dialogue nlp ex))
        ∉ st.existing_hashes)
    (h2 : hash (generate_base_conversation (process_generated_dialogue gd))
        ∈ st.existing_hashes) :
    processItem hash nlp (some gd) index ex st = (st, ItemStatus.skippedDupGenerated) := by
  simp only [processItem, if_neg h1, if_pos h2]

lemma processItem_dupid (hash : Text → Text) (nlp : Text → List Ent)
    (gd : Text) (index : Nat) (ex : DialogueJson) (st : OrchState)
    (h1 : hash (generate_base_conversation (extract_and_anonymize_dialogue nlp ex))
        ∉ st.existing_hashes)
    (h2 : hash (generate_base_conversation (process_generated_dialogue gd))
        ∉ st.existing_hashes)
    (h3 : ex.dialogue_id ++ ("_generated_").data ++ Nat.toDigits 10 index
        ∈ st.existing_ids) :
    processItem hash nlp (some gd) index ex st = (st, ItemStatus.skippedDupId) := by
  simp only [processItem, if_neg h1, if_neg h2, if_pos h3]

lemma processItem_accept (hash : Text → Text) (nlp : Text → List Ent)
    (gd : Text) (index : Nat) (ex : DialogueJson) (st : OrchState)
    (h1 : hash (generate_base_conversation (extract_and_anonymize_dialogue nlp ex))
        ∉ st.existing_hashes)
    (h2 : hash (generate_base_conversation (process_generated_dialogue gd))
        ∉ st.existing_hashes)
    (h3 : ex.dialogue_id ++ ("_generated_").data ++ Nat.toDigits 10 index
        ∉ st.existing_ids) :
    processItem hash nlp (some gd) index ex st
      = (⟨insert (ex.dialogue_id ++ ("_generated_").data ++ Nat.toDigits 10 index)
            st.existing_ids,
          insert (hash (generate_base_conversation (process_generated_dialogue gd)))
            st.existing_hashes,
          st.new_dialogues
            ++ [⟨ex.services,
                 ex.dialogue_id ++ ("_generated_").data ++ Nat.toDigits 10 index,
                 process_generated_dialogue gd,
                 generate_base_conversation (process_generated_dialogue gd)⟩]⟩,
         ItemStatus.accepted) := by
  simp only [processItem, if_neg h1, if_neg h2, if_neg h3]

lemma processItem_ne_srcdup (hash : Text → Text) (nlp : Text → List Ent)
    (g : Option Text) (index : Nat) (ex : DialogueJson) (st : OrchState)
    (h : hash (generate_base_conversation (extract_and_anonymize_dialogue nlp ex))
        ∉ st.existing_hashes) :
    (processItem hash nlp g index ex st).2 ≠ ItemStatus.skippedDupSource := by
  cases g with
  | none => rw [processItem_genfail hash nlp index ex st h]; simp
  | some gd =>
    by_cases h2 : hash (generate_base_conversation (process_generated_dialogue gd))
        ∈ st.existing_hashes
    · rw [processItem_gendup hash nlp gd index ex st h h2]; simp
    · by_cases h3 : ex.dialogue_id ++ ("_generated_").data ++ Nat.toDigits 10 index
          ∈ st.existing_ids
      · rw [processItem_dupid hash nlp gd index ex st h h2 h3]; simp
      · rw [processItem_accept hash nlp gd index ex st h h2 h3]; simp

/-- C1: if the generated transcript's fingerprint is already in the store
(and the item reached generation, i.e. its source fingerprint was fresh),
the item is marked skipped-duplicate-generated and the orchestrator state is
returned exactly unchanged: nothing is appended to the output buffer and
neither set of the store is touched. -/
theorem C1_generated_duplicate_skipped (hash : Text → Text) (nlp : Text → List Ent)
    (gd : Text) (index : Nat) (ex : DialogueJson) (st : OrchState)
    (hsrc : hash (generate_base_conversation (extract_and_anonymize_dialogue nlp ex))
        ∉ st.existing_hashes)
    (hdup : hash (generate_base_conversation (process_generated_dialogue gd))
        ∈ st.existing_hashes) :
    processItem hash nlp (some gd) index ex st = (st, ItemStatus.skippedDupGenerated) :=
  processItem_gendup hash nlp gd index ex st hsrc hdup

/-- Witness for C1 at a concrete store already holding the generated
transcript's fingerprint. -/
theorem C1_generated_duplicate_skipped_witness :
    processItem (fun t => t) (fun _ => ([] : List Ent)) (some (("User: hi").data)) 0
        ⟨[], [], [], [], ("d").data⟩ ⟨∅, {("USER: hi").data}, []⟩
      = (⟨∅, {("USER: hi").data}, []⟩, ItemStatus.skippedDupGenerated) :=
  C1_generated_duplicate_skipped (fun t => t) (fun _ => ([] : List Ent))
    (("User: hi").data) 0 ⟨[], [], [], [], ("d").data⟩ ⟨∅, {("USER: hi").data}, []⟩
    (by decide) (by decide)

/-- C10: any skipped item leaves the state untouched; an accepted item inserts
exactly the generated transcript's fingerprint into the store (never the
source's anonymized-transcript fingerprint, unless the two coincide); hence a
second source dialogue whose anonymized transcript is identical to an
accepted first one is not skipped as a duplicate source, provided that shared
fingerprint was not in the store at the start and differs from the generated
one. -/
theorem C10_only_generated_hash_inserted (hash : Text → Text) (nlp : Text → List Ent)
    (g : Option Text) (index : Nat) (ex : DialogueJson) (st : OrchState) :
    ((processItem hash nlp g index ex st).2 ≠ ItemStatus.accepted →
        (processItem hash nlp g index ex st).1 = st)
  ∧ (∀ gd, g = some gd →
      (processItem hash nlp g index ex st).2 = ItemStatus.accepted →
      (processItem hash nlp g index ex st).1.existing_hashes
        = insert (hash (generate_base_conversation (process_generated_dialogue gd)))
            st.existing_hashes)
  ∧ (∀ gd, g = some gd →
      ∀ f, f ∈ (processItem hash nlp g index ex st).1.existing_hashes →
        f ∈ st.existing_hashes
        ∨ f = hash (generate_base_conversation (process_generated_dialogue gd)))
  ∧ (∀ (gd : Text) (ex2 : DialogueJson) (g2 : Option Text) (i2 : Nat),
      g = some gd →
      generate_base_conversation (extract_and_anonymize_dialogue nlp ex2)
        = generate_base_conversation (extract_and_anonymize_dialogue nlp ex) →
      hash (generate_base_conversation (extract_and_anonymize_dialogue nlp ex))
        ∉ st.existing_hashes →
      hash (generate_base_conversation (extract_and_anonymize_dialogue nlp ex))
        ≠ hash (generate_base_conversation (process_generated_dialogue gd)) →
      (processItem hash nlp g index ex st).2 = ItemStatus.accepted →
      (processItem hash nlp g2 i2 ex2 (processItem hash nlp g index ex st).1).2
        ≠ ItemStatus.skippedDupSource) := by
  have hunchanged : (processItem hash nlp g index ex st).2 ≠ ItemStatus.accepted →
      (processItem hash nlp g index ex st).1 = st := by
    intro hne
    by_cases h1 : hash (generate_base_conversation (extract_and_anonymize_dialogue nlp ex))
        ∈ st.existing_hashes
    · rw [processItem_srcdup hash nlp g index ex st h1]
    · cases g with
      | none => rw [processItem_genfail hash nlp index ex st h1]
      | some gd =>
        by_cases h2 : hash (generate_base_conversation (process_generated_dialogue gd))
            ∈ st.existing_hashes
        · rw [processItem_gendup hash nlp gd index ex st h1 h2]
        · by_cases h3 : ex.dialogue_id ++ ("_generated_").data ++ Nat.toDigits 10 index
              ∈ st.existing_ids
          · rw [processItem_dupid hash nlp gd index ex st h1 h2 h3]
          · rw [processItem_accept hash nlp gd index ex st h1 h2 h3] at hne ⊢
            exact absurd rfl hne
  have haccepted : ∀ gd, g = some gd →
      (processItem hash nlp g index ex st).2 = ItemStatus.accepted →
      (processItem hash nlp g index ex st).1.existing_hashes
        = insert (hash (generate_base_conversation (process_generated_dialogue gd)))
            st.existing_hashes := by
    intro gd hg hacc
    subst hg
    by_cases h1 : hash (generate_base_conversation (extract_and_anonymize_dialogue nlp ex))
        ∈ st.existing_hashes
    · rw [processItem_srcdup hash nlp (some gd) index ex st h1] at hacc
      exact absurd hacc (by simp)
    · by_cases h2 : hash (generate_base_conversation (process_generated_dialogue gd))
          ∈ st.existing_hashes
      · rw [processItem_gendup hash nlp gd index ex st h1 h2] at hacc
        exact absurd hacc (by simp)
      · by_cases h3 : ex.dialogue_id ++ ("_generated_").data ++ Nat.toDigits 10 index
            ∈ st.existing_ids
        · rw [processItem_dupid hash nlp gd index ex st h1 h2 h3] at hacc
          exact absurd hacc (by simp)
        · rw [processItem_accept hash nlp gd index ex st h1 h2 h3]
  refine ⟨hunchanged, haccepted, ?_, ?_⟩
  · intro gd hg f hf
    by_cases hacc : (processItem hash nlp g index ex st).2 = ItemStatus.accepted
    · rw [haccepted gd hg hacc] at hf
      rcases Finset.mem_insert.1 hf with hf | hf
      · exact Or.inr hf
      · exact Or.inl hf
    · rw [hunchanged hacc] at hf
      exact Or.inl hf
  · intro gd ex2 g2 i2 hg hsame hnot hne hacc
    apply processItem_ne_srcdup
    rw [hsame, haccepted gd hg hacc]
    rw [Finset.mem_insert]
    intro hmem
    rcases hmem with hmem | hmem
    · exact hne hmem
    · exact hnot hmem

/-- Witness for C10: an accepted item starting from an empty store inserts
exactly the generated transcript's fingerprint. -/
theorem C10_only_generated_hash_inserted_witness :
    (processItem (fun t => t) (fun _ => ([] : List Ent)) (some (("User: hi").data)) 0
        ⟨[], [], [], [], ("d").data⟩ ⟨∅, ∅, []⟩).1.existing_hashes
      = insert (("USER: hi").data) ∅ :=
  (C10_only_generated_hash_inserted (fun t => t) (fun _ => ([] : List Ent))
      (some (("User: hi").data)) 0 ⟨[], [], [], [], ("d").data⟩ ⟨∅, ∅, []⟩).2.1
    (("User: hi").data) rfl (by decide)

/-! ### Lemmas about the run-level control flow -/

lemma load_existing_hashes_writes (hash : Text → Text) (env : MainEnv) :
    (load_existing_hashes hash env).2 = []
  ∨ (load_existing_hashes hash env).2 = [WriteEvent.hashFileWrite] := by
  unfold load_existing_hashes
  cases env.hashFile with
  | some o => cases o <;> simp
  | none =>
    cases env.outputFile with
    | some o => cases o <;> simp
    | none => simp

/-- C4: the claim as stated fails — with the fingerprint-cache file missing
and an output file present, a run whose requested count exceeds the corpus
size still writes the recomputed fingerprint cache before aborting. -/
theorem C4_counterexample :
    (mainRun (fun t => t) (fun _ => ([] : List Ent)) (fun _ => none)
        ⟨some [⟨[], [], [], [], []⟩], none, some (some [⟨[], ("d").data, [], []⟩])⟩
        2 []).result = MainResult.abortedOversample
  ∧ (mainRun (fun t => t) (fun _ => ([] : List Ent)) (fun _ => none)
        ⟨some [⟨[], [], [], [], []⟩], none, some (some [⟨[], ("d").data, [], []⟩])⟩
        2 []).writes = [WriteEvent.hashFileWrite] :=
  ⟨rfl, rfl⟩

/-- C4 (amended): a corpus-load failure aborts the run with no artifact
written at all; an oversized sample request aborts the run without ever
writing the primary output — the only write that may already have happened is
the fingerprint-cache file, recomputed and persisted during startup hash
loading from an existing output file. -/
theorem C4_fatal_abort_no_output_write (hash : Text → Text) (nlp : Text → List Ent)
    (gen : Nat → Option Text) (env : MainEnv) (num_generations : Nat)
    (selected : List Nat) :
    ((mainRun hash nlp gen env num_generations selected).result
        = MainResult.abortedLoadFailure →
      (mainRun hash nlp gen env num_generations selected).writes = [])
  ∧ ((mainRun hash nlp gen env num_generations selected).result
        = MainResult.abortedOversample →
      WriteEvent.outputFileWrite ∉ (mainRun hash nlp gen env num_generations selected).writes
    ∧ ((mainRun hash nlp gen env num_generations selected).writes = []
       ∨ (mainRun hash nlp gen env num_generations selected).writes
          = [WriteEvent.hashFileWrite])) := by
  cases henv : env.dataset with
  | none =>
    constructor
    · intro _
      simp [mainRun, henv]
    · intro habs
      rw [show (mainRun hash nlp gen env num_generations selected).result
          = MainResult.abortedLoadFailure by simp [mainRun, henv]] at habs
      exact absurd habs (by simp)
  | some data_split =>
    by_cases hlen : data_split.length < num_generations
    · constructor
      · intro habs
        rw [show (mainRun hash nlp gen env num_generations selected).result
            = MainResult.abortedOversample by simp [mainRun, henv, if_pos hlen]] at habs
        exact absurd habs (by simp)
      · intro _
        have hw : (mainRun hash nlp gen env num_generations selected).writes
            = (load_existing_hashes hash env).2 := by
          simp [mainRun, henv, if_pos hlen]
        rw [hw]
        rcases load_existing_hashes_writes hash env with h | h <;> rw [h]
        · exact ⟨by simp, Or.inl rfl⟩
        · exact ⟨by simp, Or.inr rfl⟩
    · have hres : (mainRun hash nlp gen env num_generations selected).result
          = MainResult.completed := by
        simp [mainRun, henv, if_neg hlen]
      constructor
      · intro habs
        rw [hres] at habs
        exact absurd habs (by simp)
      · intro habs
        rw [hres] at habs
        exact absurd habs (by simp)

/-- Witness for C4 at a concrete failing dataset load. -/
theorem C4_fatal_abort_no_output_write_witness :
    (mainRun (fun t => t) (fun _ => ([] : List Ent)) (fun _ => none)
        ⟨none, none, none⟩ 0 []).writes = [] :=
  (C4_fatal_abort_no_output_write (fun t => t) (fun _ => ([] : List Ent))
      (fun _ => none) ⟨none, none, none⟩ 0 []).1 rfl

/-- C6: requesting exactly the corpus size proceeds to a completed run, while
requesting any strictly larger count aborts as an oversample with zero
synthesizer (and hence generative-capability) calls. -/
theorem C6_sample_boundary (hash : Text → Text) (nlp : Text → List Ent)
    (gen : Nat → Option Text) (env : MainEnv) (data : List DialogueJson)
    (selected : List Nat) (hdata : env.dataset = some data) :
    (mainRun hash nlp gen env data.length selected).result = MainResult.completed
  ∧ ∀ n, data.length < n →
      (mainRun hash nlp gen env n selected).result = MainResult.abortedOversample
    ∧ (mainRun hash nlp gen env n selected).genCalls = 0 := by
  constructor
  · simp [mainRun, hdata]
  · intro n hn
    constructor
    · simp [mainRun, hdata, if_pos hn]
    · simp [mainRun, hdata, if_pos hn]

/-- Witness for C6 at a one-element corpus: one requested item completes, two
abort with zero generation calls. -/
theorem C6_sample_boundary_witness :
    (mainRun (fun t => t) (fun _ => ([] : List Ent)) (fun _ => none)
        ⟨some [⟨[], [], [], [], ("d").data⟩], some (some []), none⟩ 1 [0]).result
      = MainResult.completed
  ∧ (mainRun (fun t => t) (fun _ => ([] : List Ent)) (fun _ => none)
        ⟨some [⟨[], [], [], [], ("d").data⟩], some (some []), none⟩ 2 [0]).result
      = MainResult.abortedOversample
  ∧ (mainRun (fun t => t) (fun _ => ([] : List Ent)) (fun _ => none)
        ⟨some [⟨[], [], [], [], ("d").data⟩], some (some []), none⟩ 2 [0]).genCalls = 0 :=
  ⟨(C6_sample_boundary (fun t => t) (fun _ => ([] : List Ent)) (fun _ => none)
      ⟨some [⟨[], [], [], [], ("d").data⟩], some (some []), none⟩
      [⟨[], [], [], [], ("d").data⟩] [0] rfl).1,
   ((C6_sample_boundary (fun t => t) (fun _ => ([] : List Ent)) (fun _ => none)
      ⟨some [⟨[], [], [], [], ("d").data⟩], some (some []), none⟩
      [⟨[], [], [], [], ("d").data⟩] [0] rfl).2 2 (by decide)).1,
   ((C6_sample_boundary (fun t => t) (fun _ => ([] : List Ent)) (fun _ => none)
      ⟨some [⟨[], [], [], [], ("d").data⟩], some (some []), none⟩
      [⟨[], [], [], [], ("d").data⟩] [0] rfl).2 2 (by decide)).2⟩

end UpdatesGen
